import Mathlib

/-!
Verification of the HeyFun agent execution core against its specification.

The Python sources embedded here are:
* `app/utils/prompt_template.py` — `PromptTemplateManager.render_template_safe`
* `app/agent/react.py` — `ReActAgent.step` (token bookkeeping, short-circuit)
* `app/agent/funmax.py` — `FunMax.prepare`, `FunMax.think`, `FunMax.cleanup`,
  `FunMax._check_browser_in_use_recently`

Stateful Python methods become explicit state-passing functions of type
`AgentState → Except Err α × AgentState`: an exception carries the state as it
stood when the exception was raised (Python mutations on `self` survive an
exception).  Abstract collaborators (the reasoning service, the tool-call
context, the browser helper) are parameters of the embedded functions, since
`think`/`act` are abstract methods and the helpers live outside the embedded
slice.
-/

namespace HeyFun

/-- Opaque error value standing for a raised Python exception. -/
structure Err where
  msg : String
deriving DecidableEq, Repr

/-- Structured events pushed by the agent core.  The named constructors are the
step-machinery events emitted by `ReActAgent.step` and `FunMax`; `other` stands
for any event emitted by code outside the embedded slice (tools, helpers). -/
inductive Event where
  | stepStart
  | stepComplete
  | stepError
  | thinkStart
  | thinkTokenCount (input completion totalInput totalCompletion : Int)
  | thinkComplete
  | actStart
  | actTokenCount (input completion totalInput totalCompletion : Int)
  | actComplete
  | lifecycleSummary (summary : String)
  | other (tag : String)
deriving DecidableEq, Repr

/-- One requested tool invocation attached to an assistant message
(`tc.function.name` in the source). -/
structure ToolCall where
  id : String
  functionName : String
  arguments : String
deriving DecidableEq, Repr

/-- One memory entry (`app.schema.Message`): role, content, optional tool
calls.  A Python `tool_calls = None` is the empty list. -/
structure Message where
  role : String
  content : String
  toolCalls : List ToolCall := []
deriving DecidableEq, Repr

/-- The mutable fields of the agent relevant to the embedded methods:
the llm handle's cumulative token counters, the per-step baselines of
`ReActAgent`, termination flag, prompts, memory and the emitted-event log. -/
structure AgentState where
  totalInput : Int
  totalCompletion : Int
  preStepInput : Int
  preStepCompletion : Int
  shouldTerminate : Bool
  nextStepPrompt : String
  memory : List Message
  events : List Event
deriving DecidableEq, Repr

/-- `self.emit(event)`: append one event to the process-wide event log. -/
def emit (s : AgentState) (e : Event) : AgentState :=
  { s with events := s.events ++ [e] }

/-- A stateful, fallible operation on the agent (an awaited Python call). -/
def AgentOp (α : Type) : Type := AgentState → Except Err α × AgentState

/-! ## `PromptTemplateManager.render_template_safe` (app/utils/prompt_template.py)

The two rendering backends (the Jinja2 `render`, the Python `str.format`) are
external libraries, embedded as parameters returning `Except Err String`. -/

/-- `render_template_safe`: try Jinja2 rendering; on any exception fall back to
`str.format`; if that also raises, return the original template string. -/
def render_template_safe (jinjaRender strFormat : String → Except Err String)
    (templateString : String) : String :=
  match jinjaRender templateString with
  | .ok r => r
  | .error _ =>
    match strFormat templateString with
    | .ok r => r
    | .error _ => templateString

/-! ## `FunMax._check_browser_in_use_recently` (app/agent/funmax.py) -/

/-- `BrowserUseTool().name` in the source. -/
def browserToolName : String := "browser_use"

/-- The Python slice `lst[-3:]`: the last three elements (all when fewer). -/
def lastThree (l : List Message) : List Message :=
  l.drop (l.length - 3)

/-- `_check_browser_in_use_recently`: true iff some tool call of one of the
last 3 memory messages names the browser tool.  (The source's
`if self.memory.messages else []` guard is the identity on the empty list.) -/
def checkBrowserInUseRecently (memory : List Message) : Bool :=
  let recentMessages := if memory.isEmpty then [] else lastThree memory
  recentMessages.any fun msg =>
    msg.toolCalls.any fun tc => tc.functionName == browserToolName

/-! ## `ReActAgent.step` (app/agent/react.py) -/

/-- Events produced by the step machinery itself (`ReActAgent.step` and its
wrapper); the concrete `think`/`act` of the task driver never emit these. -/
def isMachineryEvent : Event → Bool
  | .stepStart => true
  | .stepComplete => true
  | .stepError => true
  | .thinkStart => true
  | .thinkTokenCount _ _ _ _ => true
  | .thinkComplete => true
  | .actStart => true
  | .actTokenCount _ _ _ _ => true
  | .actComplete => true
  | .lifecycleSummary _ => false
  | .other _ => false

/-- The act-phase events of one step. -/
def isActEvent : Event → Bool
  | .actStart => true
  | .actTokenCount _ _ _ _ => true
  | .actComplete => true
  | _ => false

/-- The step-lifecycle events emitted by the wrapper around `step`. -/
def isStepLifecycleEvent : Event → Bool
  | .stepStart => true
  | .stepComplete => true
  | .stepError => true
  | _ => false

/-- The input-token delta reported by a token-count event (0 for others). -/
def eventInputDelta : Event → Int
  | .thinkTokenCount i _ _ _ => i
  | .actTokenCount i _ _ _ => i
  | _ => 0

/-- The completion-token delta reported by a token-count event (0 for others). -/
def eventCompletionDelta : Event → Int
  | .thinkTokenCount _ c _ _ => c
  | .actTokenCount _ c _ _ => c
  | _ => 0

/-- Sum of all input-token deltas reported in an event log. -/
def tokenDeltaInputSum (l : List Event) : Int := (l.map eventInputDelta).sum

/-- Sum of all completion-token deltas reported in an event log. -/
def tokenDeltaCompletionSum (l : List Event) : Int :=
  (l.map eventCompletionDelta).sum

/-- The body of `ReActAgent.step` (react.py lines 28-69): think, report the
think-phase token delta against the stored baseline, persist the new baseline,
short-circuit when `should_act` is false and the run is not terminating,
otherwise act and repeat the token bookkeeping.  `think`/`act` are the abstract
methods implemented by the task driver, passed in as parameters. -/
def stepBody (think : AgentOp Bool) (act : AgentOp String) (s : AgentState) :
    Except Err String × AgentState :=
  let s := emit s .thinkStart
  match think s with
  | (.error e, s) => (.error e, s)
  | (.ok shouldAct, s) =>
    let totalInput := s.totalInput
    let totalCompletion := s.totalCompletion
    let inputTokens := totalInput - s.preStepInput
    let completionTokens := totalCompletion - s.preStepCompletion
    let s := emit s
      (.thinkTokenCount inputTokens completionTokens totalInput totalCompletion)
    let s := { s with preStepInput := totalInput,
                      preStepCompletion := totalCompletion }
    let s := emit s .thinkComplete
    if !shouldAct && !s.shouldTerminate then
      (.ok "Thinking complete - no action needed", s)
    else
      let s := emit s .actStart
      match act s with
      | (.error e, s) => (.error e, s)
      | (.ok result, s) =>
        let totalInput := s.totalInput
        let totalCompletion := s.totalCompletion
        let inputTokens := totalInput - s.preStepInput
        let completionTokens := totalCompletion - s.preStepCompletion
        let s := emit s
          (.actTokenCount inputTokens completionTokens totalInput totalCompletion)
        let s := { s with preStepInput := totalInput,
                          preStepCompletion := totalCompletion }
        let s := emit s .actComplete
        (.ok result, s)

/-- Modelled from the spec: `AgentEvent.event_wrapper`
(app/utils/agent_event.py) is not among the provided sources.  Per §4.2 and §9
of the spec, the wrapper emits the start event before the body runs, the
complete event when the body returns normally, and the error event when the
body raises, re-raising the exception afterwards. -/
def eventWrapper (body : AgentState → Except Err String × AgentState)
    (s : AgentState) : Except Err String × AgentState :=
  let s := emit s .stepStart
  match body s with
  | (.ok r, s) => (.ok r, emit s .stepComplete)
  | (.error e, s) => (.error e, emit s .stepError)

/-- `ReActAgent.step`: the body wrapped in the step-lifecycle event wrapper. -/
def step (think : AgentOp Bool) (act : AgentOp String) : AgentOp String :=
  eventWrapper (stepBody think act)

/-- Modelled from the spec: the loop controller (`BaseAgent.run`, not among
the provided sources) invokes `step()` once per iteration, at most one step in
flight, stopping at a terminal state, the step budget, or an error (§4.2, §5).
`runSteps n` performs `n` normally-completing steps, stopping early at the
first step that raises. -/
def runSteps (think : AgentOp Bool) (act : AgentOp String) :
    Nat → AgentState → Except Err Unit × AgentState
  | 0, s => (.ok (), s)
  | n + 1, s =>
    match step think act s with
    | (.ok _, s') => runSteps think act n s'
    | (.error e, s') => (.error e, s')

/-- Frame property of a driver-supplied phase (`FunMax.think` / `FunMax.act`):
it only appends events, none of them step-machinery events, and it does not
touch the step-token baselines (those belong to `ReActAgent.step` alone). -/
def PhaseFrame {α : Type} (f : AgentOp α) : Prop :=
  ∀ s, ∃ δ, ((f s).2).events = s.events ++ δ ∧
    δ.all (fun e => !isMachineryEvent e) = true ∧
    (f s).2.preStepInput = s.preStepInput ∧
    (f s).2.preStepCompletion = s.preStepCompletion

/-! ## `FunMax` (app/agent/funmax.py)

`ToolCallContextHelper` / `BrowserContextHelper` / `BaseAgent` live outside the
provided sources; their operations appear as abstract `AgentOp` parameters. -/

/-- Modelled from the spec: `BaseAgent.update_memory` (app/agent/base.py) is
not among the provided sources.  Per §3/§6 it appends one Message with the
given role and content to the append-only Memory. -/
def update_memory (role content : String) (s : AgentState) : AgentState :=
  { s with memory := s.memory ++ [{ role := role, content := content }] }

/-- `FunMax.prepare` (funmax.py lines 116-167): run the base preparation, seed
Memory with the system prompt, replay the supplied history in order, populate
the tool registry (the helper-construction and add_tool/add_mcp loop, whose
implementations are outside the provided sources, abstracted as
`populateTools`), then request a task summary from the reasoning service —
with no exception handler around it — and emit the summary lifecycle event. -/
def funmaxPrepare (superPrepare populateTools : AgentOp Unit)
    (askSummary : AgentOp String) (systemPrompt : String)
    (history : List (String × String)) (s : AgentState) :
    Except Err Unit × AgentState :=
  match superPrepare s with
  | (.error e, s) => (.error e, s)
  | (.ok _, s) =>
    let s := update_memory "system" systemPrompt s
    let s := history.foldl (fun s msg => update_memory msg.1 msg.2 s) s
    match populateTools s with
    | (.error e, s) => (.error e, s)
    | (.ok _, s) =>
      match askSummary s with
      | (.error e, s) => (.error e, s)
      | (.ok summary, s) => (.ok (), emit s (.lifecycleSummary summary))

/-- `FunMax.think` (funmax.py lines 198-221): save the current next-step
prompt, re-render it with fresh step figures, substitute the browser helper's
specialized prompt when the browser was used recently, delegate to the
tool-call context's ask operation, and — only on the normal-return path, there
being no try/finally in the source — restore the saved prompt. -/
def funmaxThink (renderNextStep : AgentState → String)
    (browserFormatPrompt : AgentOp String) (askTool : AgentOp Bool)
    (s : AgentState) : Except Err Bool × AgentState :=
  let originalPrompt := s.nextStepPrompt
  let s := { s with nextStepPrompt := renderNextStep s }
  match (if checkBrowserInUseRecently s.memory then
           match browserFormatPrompt s with
           | (.error e, s) => (.error e, s)
           | (.ok p, s) => (.ok (), { s with nextStepPrompt := p })
         else (.ok (), s) : Except Err Unit × AgentState) with
  | (.error e, s) => (.error e, s)
  | (.ok _, s) =>
    match askTool s with
    | (.error e, s) => (.error e, s)
    | (.ok result, s) => (.ok result, { s with nextStepPrompt := originalPrompt })

/-- `FunMax.cleanup` (funmax.py lines 239-247): browser-context teardown, then
tool-registry cleanup, then the base cleanup — three sequential awaited calls
with no exception handler between them.  (The `if self.browser_context_helper`
guards are truthy once `prepare` has run, the case the claim is about.) -/
def funmaxCleanup (cleanupBrowser cleanupTools superCleanup : AgentOp Unit)
    (s : AgentState) : Except Err Unit × AgentState :=
  match cleanupBrowser s with
  | (.error e, s) => (.error e, s)
  | (.ok _, s) =>
    match cleanupTools s with
    | (.error e, s) => (.error e, s)
    | (.ok _, s) =>
      match superCleanup s with
      | (.error e, s) => (.error e, s)
      | (.ok _, s) => (.ok (), s)

/-- The tail of `FunMax.think` after the prompt-substitution phase: delegate
to the ask operation, then restore the saved prompt on normal return. -/
def askContinue (originalPrompt : String) (ask : AgentOp Bool)
    (s : AgentState) : Except Err Bool × AgentState :=
  match ask s with
  | (.error e, s) => (.error e, s)
  | (.ok result, s) => (.ok result, { s with nextStepPrompt := originalPrompt })

/-! ## Concrete instances used to exercise the theorems -/

/-- A fresh-run agent state: counters and baselines zero, no events, empty
memory, not terminating. -/
def sInit : AgentState :=
  { totalInput := 0, totalCompletion := 0, preStepInput := 0,
    preStepCompletion := 0, shouldTerminate := false,
    nextStepPrompt := "next-step", memory := [], events := [] }

/-- `sInit` with a recognizable next-step prompt. -/
def sPrompt : AgentState := { sInit with nextStepPrompt := "original" }

/-- A think phase that asks the reasoning service (7 input / 3 completion
tokens) and decides not to act. -/
def thinkNoAct : AgentOp Bool := fun s =>
  (.ok false, { s with totalInput := s.totalInput + 7,
                       totalCompletion := s.totalCompletion + 3,
                       events := s.events ++ [.other "llm-ask"] })

/-- A think phase that asks the reasoning service and decides to act. -/
def thinkAct : AgentOp Bool := fun s =>
  (.ok true, { s with totalInput := s.totalInput + 7,
                      totalCompletion := s.totalCompletion + 3,
                      events := s.events ++ [.other "llm-ask"] })

/-- An act phase that executes one tool call (5 input / 2 completion tokens
spent on the follow-up) and succeeds. -/
def actSimple : AgentOp String := fun s =>
  (.ok "tool done", { s with totalInput := s.totalInput + 5,
                             totalCompletion := s.totalCompletion + 2,
                             events := s.events ++ [.other "tool-exec"] })

/-- A stateful operation that succeeds without touching the agent state. -/
def idOp : AgentOp Unit := fun s => (.ok (), s)

/-- An assistant message carrying one browser tool call. -/
def browserMsg : Message :=
  { role := "assistant", content := "",
    toolCalls := [{ id := "call-1", functionName := browserToolName,
                    arguments := "" }] }

/-- `sPrompt` with a recent browser tool call in memory. -/
def sBrowser : AgentState := { sPrompt with memory := [browserMsg] }

/-! ## Helper lemmas -/

@[simp] theorem emit_totalInput (s : AgentState) (e : Event) :
    (emit s e).totalInput = s.totalInput := rfl

@[simp] theorem emit_totalCompletion (s : AgentState) (e : Event) :
    (emit s e).totalCompletion = s.totalCompletion := rfl

@[simp] theorem emit_preStepInput (s : AgentState) (e : Event) :
    (emit s e).preStepInput = s.preStepInput := rfl

@[simp] theorem emit_preStepCompletion (s : AgentState) (e : Event) :
    (emit s e).preStepCompletion = s.preStepCompletion := rfl

@[simp] theorem emit_shouldTerminate (s : AgentState) (e : Event) :
    (emit s e).shouldTerminate = s.shouldTerminate := rfl

@[simp] theorem emit_nextStepPrompt (s : AgentState) (e : Event) :
    (emit s e).nextStepPrompt = s.nextStepPrompt := rfl

@[simp] theorem emit_memory (s : AgentState) (e : Event) :
    (emit s e).memory = s.memory := rfl

@[simp] theorem emit_events (s : AgentState) (e : Event) :
    (emit s e).events = s.events ++ [e] := rfl

@[simp] theorem tokenDeltaInputSum_append (a b : List Event) :
    tokenDeltaInputSum (a ++ b) = tokenDeltaInputSum a + tokenDeltaInputSum b := by
  simp [tokenDeltaInputSum]

@[simp] theorem tokenDeltaCompletionSum_append (a b : List Event) :
    tokenDeltaCompletionSum (a ++ b)
      = tokenDeltaCompletionSum a + tokenDeltaCompletionSum b := by
  simp [tokenDeltaCompletionSum]

theorem tokenDeltaInputSum_nonmachinery (δ : List Event)
    (h : δ.all (fun e => !isMachineryEvent e) = true) :
    tokenDeltaInputSum δ = 0 := by
  induction δ with
  | nil => rfl
  | cons e es ih =>
    simp only [List.all_cons, Bool.and_eq_true] at h
    have he : eventInputDelta e = 0 := by
      cases e <;> simp_all [isMachineryEvent, eventInputDelta]
    have hes := ih h.2
    simp [tokenDeltaInputSum] at hes ⊢
    simp [he, hes]

theorem tokenDeltaCompletionSum_nonmachinery (δ : List Event)
    (h : δ.all (fun e => !isMachineryEvent e) = true) :
    tokenDeltaCompletionSum δ = 0 := by
  induction δ with
  | nil => rfl
  | cons e es ih =>
    simp only [List.all_cons, Bool.and_eq_true] at h
    have he : eventCompletionDelta e = 0 := by
      cases e <;> simp_all [isMachineryEvent, eventCompletionDelta]
    have hes := ih h.2
    simp [tokenDeltaCompletionSum] at hes ⊢
    simp [he, hes]

/-- Master characterization of the normal-return path of `step`: the stored
baselines equal the final cumulative counters, and the events appended during
the step report token deltas summing to (final cumulative) − (baseline at
entry). -/
theorem step_ok_master (think : AgentOp Bool) (act : AgentOp String)
    (hthink : PhaseFrame think) (hact : PhaseFrame act)
    (s : AgentState) (r : String) (s' : AgentState)
    (h : step think act s = (.ok r, s')) :
    s'.preStepInput = s'.totalInput ∧ s'.preStepCompletion = s'.totalCompletion ∧
    ∃ δ, s'.events = s.events ++ δ ∧
      tokenDeltaInputSum δ = s'.totalInput - s.preStepInput ∧
      tokenDeltaCompletionSum δ = s'.totalCompletion - s.preStepCompletion := by
  simp only [step, eventWrapper, stepBody] at h
  split at h
  case _ r1 s1 heq =>
    simp only [Prod.mk.injEq, Except.ok.injEq] at h
    obtain ⟨-, rfl⟩ := h
    split at heq
    case _ e s2 hthink0 => simp at heq
    case _ b s2 hthink0 =>
      obtain ⟨δt, het, hallt, hpit, hpct⟩ := hthink (emit (emit s .stepStart) .thinkStart)
      rw [hthink0] at het hpit hpct
      simp only [emit_events, emit_preStepInput, emit_preStepCompletion] at het hpit hpct
      split at heq
      · -- short-circuit path
        simp only [Prod.mk.injEq, Except.ok.injEq] at heq
        obtain ⟨-, rfl⟩ := heq
        refine ⟨by simp, by simp, ⟨[.stepStart, .thinkStart] ++ δt ++
          [.thinkTokenCount (s2.totalInput - s2.preStepInput)
            (s2.totalCompletion - s2.preStepCompletion)
            s2.totalInput s2.totalCompletion, .thinkComplete, .stepComplete],
          ?_, ?_, ?_⟩⟩
        · simp [het]
        · have h0 := tokenDeltaInputSum_nonmachinery δt hallt
          simp [tokenDeltaInputSum] at h0
          simp [tokenDeltaInputSum, eventInputDelta, h0, hpit]
        · have h0 := tokenDeltaCompletionSum_nonmachinery δt hallt
          simp [tokenDeltaCompletionSum] at h0
          simp [tokenDeltaCompletionSum, eventCompletionDelta, h0, hpct]
      · -- full think-then-act path
        split at heq
        case _ e s3 hact0 => simp at heq
        case _ res s3 hact0 =>
          simp only [Prod.mk.injEq, Except.ok.injEq] at heq
          obtain ⟨-, rfl⟩ := heq
          obtain ⟨δa, hea, halla, hpia, hpca⟩ := hact _
          rw [hact0] at hea hpia hpca
          simp only [emit_events, emit_preStepInput, emit_preStepCompletion] at hea hpia hpca
          refine ⟨by simp, by simp, ⟨[.stepStart, .thinkStart] ++ δt ++
            [.thinkTokenCount (s2.totalInput - s2.preStepInput)
              (s2.totalCompletion - s2.preStepCompletion)
              s2.totalInput s2.totalCompletion, .thinkComplete, .actStart] ++ δa ++
            [.actTokenCount (s3.totalInput - s3.preStepInput)
              (s3.totalCompletion - s3.preStepCompletion)
              s3.totalInput s3.totalCompletion, .actComplete, .stepComplete],
            ?_, ?_, ?_⟩⟩
          · simp [hea, het]
          · have h0 := tokenDeltaInputSum_nonmachinery δt hallt
            have h1 := tokenDeltaInputSum_nonmachinery δa halla
            simp [tokenDeltaInputSum] at h0 h1
            simp [tokenDeltaInputSum, eventInputDelta, h0, h1, hpit, hpia]
          · have h0 := tokenDeltaCompletionSum_nonmachinery δt hallt
            have h1 := tokenDeltaCompletionSum_nonmachinery δa halla
            simp [tokenDeltaCompletionSum] at h0 h1
            simp [tokenDeltaCompletionSum, eventCompletionDelta, h0, h1, hpct, hpca]
  case _ e1 s1 heq =>
    simp at h

theorem not_act_of_not_machinery (δ : List Event)
    (h : δ.all (fun e => !isMachineryEvent e) = true) :
    δ.all (fun e => !isActEvent e) = true := by
  simp only [List.all_eq_true] at h ⊢
  intro e he
  have := h e he
  cases e <;> simp_all [isMachineryEvent, isActEvent]

theorem thinkNoAct_frame : PhaseFrame thinkNoAct :=
  fun _ => ⟨[.other "llm-ask"], rfl, rfl, rfl, rfl⟩

theorem thinkAct_frame : PhaseFrame thinkAct :=
  fun _ => ⟨[.other "llm-ask"], rfl, rfl, rfl, rfl⟩

theorem actSimple_frame : PhaseFrame actSimple :=
  fun _ => ⟨[.other "tool-exec"], rfl, rfl, rfl, rfl⟩

/-- The token-accounting invariant carried through a run: baselines track the
cumulative counters and the event log accounts for every token counted. -/
theorem runSteps_ok_invariant (think : AgentOp Bool) (act : AgentOp String)
    (hthink : PhaseFrame think) (hact : PhaseFrame act) :
    ∀ (n : Nat) (s s' : AgentState),
      s.preStepInput = s.totalInput → s.preStepCompletion = s.totalCompletion →
      tokenDeltaInputSum s.events = s.totalInput →
      tokenDeltaCompletionSum s.events = s.totalCompletion →
      runSteps think act n s = (.ok (), s') →
      s'.preStepInput = s'.totalInput ∧ s'.preStepCompletion = s'.totalCompletion ∧
      tokenDeltaInputSum s'.events = s'.totalInput ∧
      tokenDeltaCompletionSum s'.events = s'.totalCompletion := by
  intro n
  induction n with
  | zero =>
    intro s s' h1 h2 h3 h4 h
    simp only [runSteps, Prod.mk.injEq, true_and] at h
    subst h
    exact ⟨h1, h2, h3, h4⟩
  | succ n ih =>
    intro s s' h1 h2 h3 h4 h
    simp only [runSteps] at h
    split at h
    case _ v s1 hstep =>
      obtain ⟨hp1, hp2, δ, hev, hsi, hsc⟩ :=
        step_ok_master think act hthink hact s v s1 hstep
      refine ih s1 s' hp1 hp2 ?_ ?_ h
      · rw [hev, tokenDeltaInputSum_append, h3, hsi, h1]; ring
      · rw [hev, tokenDeltaCompletionSum_append, h4, hsc, h2]; ring
    case _ e s1 hstep => simp at h

/-! ## Theorems -/

/-- Claim C1: on every normally-completing step whose entry baselines match
the cumulative counters (the stored state after the previous step), the token
deltas reported during the step — the think-phase delta plus, when the act
phase runs, the act-phase delta — sum to (cumulative counters after the step)
minus (cumulative counters before the step), for both input and completion
tokens; and over a whole run from a fresh state, the sum of all reported
deltas equals the final cumulative totals. -/
theorem step_token_delta_accounting (think : AgentOp Bool)
    (act : AgentOp String) (hthink : PhaseFrame think)
    (hact : PhaseFrame act) :
    (∀ s r s', s.preStepInput = s.totalInput →
       s.preStepCompletion = s.totalCompletion →
       step think act s = (.ok r, s') →
       ∃ δ, s'.events = s.events ++ δ ∧
         tokenDeltaInputSum δ = s'.totalInput - s.totalInput ∧
         tokenDeltaCompletionSum δ = s'.totalCompletion - s.totalCompletion) ∧
    (∀ n s0 s', s0.events = [] → s0.totalInput = 0 → s0.totalCompletion = 0 →
       s0.preStepInput = 0 → s0.preStepCompletion = 0 →
       runSteps think act n s0 = (.ok (), s') →
       tokenDeltaInputSum s'.events = s'.totalInput ∧
       tokenDeltaCompletionSum s'.events = s'.totalCompletion) := by
  constructor
  · intro s r s' hp1 hp2 h
    obtain ⟨-, -, δ, hev, hsi, hsc⟩ :=
      step_ok_master think act hthink hact s r s' h
    exact ⟨δ, hev, by rw [hsi, hp1], by rw [hsc, hp2]⟩
  · intro n s0 s' he h1 h2 h3 h4 h
    have hinv := runSteps_ok_invariant think act hthink hact n s0 s'
      (by rw [h1, h3]) (by rw [h2, h4])
      (by rw [he, h1]; rfl) (by rw [he, h2]; rfl) h
    exact ⟨hinv.2.2.1, hinv.2.2.2⟩

/-- Witness for C1 at a concrete two-step run: thinking twice with no action,
7 input and 3 completion tokens per think call, starting from a fresh state. -/
theorem step_token_delta_accounting_witness :
    tokenDeltaInputSum (runSteps thinkNoAct actSimple 2 sInit).2.events
        = (runSteps thinkNoAct actSimple 2 sInit).2.totalInput ∧
    tokenDeltaCompletionSum (runSteps thinkNoAct actSimple 2 sInit).2.events
        = (runSteps thinkNoAct actSimple 2 sInit).2.totalCompletion :=
  (step_token_delta_accounting thinkNoAct actSimple thinkNoAct_frame
    actSimple_frame).2 2 sInit _ rfl rfl rfl rfl rfl rfl

/-- Claim C2: when `think` returns false and the resulting state is not
terminating, `step` never invokes `act` (its result does not depend on the
act phase at all), returns the fixed no-op string, and emits no act-phase
events. -/
theorem step_short_circuit_no_act (think : AgentOp Bool)
    (hthink : PhaseFrame think) (s s1 : AgentState)
    (ht : think (emit (emit s .stepStart) .thinkStart) = (.ok false, s1))
    (hterm : s1.shouldTerminate = false) (act : AgentOp String) :
    (step think act s).1 = .ok "Thinking complete - no action needed" ∧
    (∀ act' : AgentOp String, step think act s = step think act' s) ∧
    ∃ δ, (step think act s).2.events = s.events ++ δ ∧
      δ.all (fun e => !isActEvent e) = true := by
  obtain ⟨δt, het, hallt, -, -⟩ := hthink (emit (emit s .stepStart) .thinkStart)
  rw [ht] at het
  simp only [emit_events] at het
  refine ⟨?_, ?_, ?_⟩
  · simp [step, eventWrapper, stepBody, ht, hterm]
  · intro act'
    simp [step, eventWrapper, stepBody, ht, hterm]
  · refine ⟨[.stepStart, .thinkStart] ++ δt ++
      [.thinkTokenCount (s1.totalInput - s1.preStepInput)
        (s1.totalCompletion - s1.preStepCompletion)
        s1.totalInput s1.totalCompletion, .thinkComplete, .stepComplete],
      ?_, ?_⟩
    · simp [step, eventWrapper, stepBody, ht, hterm, het]
    · have hδ := not_act_of_not_machinery δt hallt
      simp only [List.all_append, Bool.and_eq_true]
      refine ⟨⟨?_, hδ⟩, ?_⟩ <;> simp [isActEvent]

/-- Witness for C2: a concrete think phase that returns false on a
non-terminating fresh state. -/
theorem step_short_circuit_no_act_witness :
    (step thinkNoAct actSimple sInit).1
      = .ok "Thinking complete - no action needed" :=
  (step_short_circuit_no_act thinkNoAct thinkNoAct_frame sInit _ rfl rfl
    actSimple).1

/-- Claim C8: the wrapper around `step` emits step-start before the body
runs, then exactly one of step-complete (normal return, result passed
through) or step-error (exception, which still propagates to the caller). -/
theorem step_event_lifecycle_pairing
    (body : AgentState → Except Err String × AgentState)
    (hbody : ∀ t, ∃ δ, ((body t).2).events = t.events ++ δ ∧
       δ.all (fun e => !isStepLifecycleEvent e) = true)
    (s : AgentState) :
    (∀ r s2, body (emit s .stepStart) = (.ok r, s2) →
       eventWrapper body s = (.ok r, emit s2 .stepComplete)) ∧
    (∀ e s2, body (emit s .stepStart) = (.error e, s2) →
       eventWrapper body s = (.error e, emit s2 .stepError)) ∧
    ∃ δ term, (eventWrapper body s).2.events
        = s.events ++ [.stepStart] ++ δ ++ [term] ∧
      δ.all (fun e => !isStepLifecycleEvent e) = true ∧
      (term = .stepComplete ∨ term = .stepError) ∧
      (term = .stepComplete ↔ ∃ r, (eventWrapper body s).1 = .ok r) := by
  obtain ⟨δ, hev, hall⟩ := hbody (emit s .stepStart)
  rcases hb : body (emit s .stepStart) with ⟨res, s2⟩
  rw [hb] at hev
  simp only [emit_events] at hev
  refine ⟨?_, ?_, ?_⟩
  · intro r s3 h
    obtain ⟨rfl, rfl⟩ := Prod.mk.injEq .. |>.mp h
    simp [eventWrapper, hb]
  · intro e s3 h
    obtain ⟨rfl, rfl⟩ := Prod.mk.injEq .. |>.mp h
    simp [eventWrapper, hb]
  · rcases res with e | r
    · exact ⟨δ, .stepError, by simp [eventWrapper, hb, hev], hall,
        .inr rfl, by simp [eventWrapper, hb]⟩
    · exact ⟨δ, .stepComplete, by simp [eventWrapper, hb, hev], hall,
        .inl rfl, by simp [eventWrapper, hb]⟩

/-- Witness for C8: a concrete body that emits one non-lifecycle event and
returns normally. -/
theorem step_event_lifecycle_pairing_witness :
    eventWrapper (fun t => (.ok "done", emit t (.other "work"))) sInit
      = (.ok "done",
         emit (emit (emit sInit .stepStart) (.other "work")) .stepComplete) :=
  (step_event_lifecycle_pairing (fun t => (.ok "done", emit t (.other "work")))
    (fun _ => ⟨[.other "work"], rfl, rfl⟩) sInit).1 "done" _ rfl

/-- C6: `render_template_safe` never raises (it is a total function into
`String` by construction): it returns the Jinja2 rendering when that succeeds,
the `str.format` rendering when Jinja2 raises and `str.format` succeeds, and
the original template string when both raise. -/
theorem render_template_safe_graceful
    (jinjaRender strFormat : String → Except Err String) (t : String) :
    (∀ r, jinjaRender t = .ok r →
      render_template_safe jinjaRender strFormat t = r) ∧
    (∀ e r, jinjaRender t = .error e → strFormat t = .ok r →
      render_template_safe jinjaRender strFormat t = r) ∧
    (∀ e e', jinjaRender t = .error e → strFormat t = .error e' →
      render_template_safe jinjaRender strFormat t = t) := by
  refine ⟨fun r h => ?_, fun e r h h' => ?_, fun e e' h h' => ?_⟩ <;>
    simp [render_template_safe, h, *]

/-- Witness for C6 at concrete renderers: Jinja2 raising, `str.format`
succeeding. -/
theorem render_template_safe_graceful_witness :
    render_template_safe (fun _ => .error ⟨"jinja boom"⟩)
      (fun _ => .ok "formatted") "tpl" = "formatted" :=
  (render_template_safe_graceful (fun _ => .error ⟨"jinja boom"⟩)
    (fun _ => .ok "formatted") "tpl").2.1 ⟨"jinja boom"⟩ "formatted" rfl rfl

/-- C10: whenever `step` returns normally — short-circuit path or full
think-then-act path — the stored baselines equal the llm handle's cumulative
counters at the moment of return. -/
theorem step_baselines_match_totals (think : AgentOp Bool)
    (act : AgentOp String) (s : AgentState) (r : String) (s' : AgentState)
    (h : step think act s = (.ok r, s')) :
    s'.preStepInput = s'.totalInput ∧ s'.preStepCompletion = s'.totalCompletion := by
  simp only [step, eventWrapper, stepBody] at h
  split at h
  case _ r1 s1 heq =>
    simp only [Prod.mk.injEq, Except.ok.injEq] at h
    obtain ⟨-, rfl⟩ := h
    split at heq
    case _ e s2 hthink => simp at heq
    case _ b s2 hthink =>
      split at heq
      · simp only [Prod.mk.injEq, Except.ok.injEq] at heq
        obtain ⟨-, rfl⟩ := heq
        simp
      · split at heq
        case _ e s3 hact => simp at heq
        case _ res s3 hact =>
          simp only [Prod.mk.injEq, Except.ok.injEq] at heq
          obtain ⟨-, rfl⟩ := heq
          simp
  case _ e1 s1 heq =>
    simp at h

/-- Witness for C10 at a concrete full think-then-act step. -/
theorem step_baselines_match_totals_witness :
    (step thinkAct actSimple sInit).2.preStepInput
        = (step thinkAct actSimple sInit).2.totalInput ∧
    (step thinkAct actSimple sInit).2.preStepCompletion
        = (step thinkAct actSimple sInit).2.totalCompletion :=
  step_baselines_match_totals thinkAct actSimple sInit "tool done" _ rfl

/-- Claim C3 counterexample: with the browser not recently in use, a
re-rendered prompt different from the saved one, and an ask operation that
raises, `think` exits with the substituted prompt still in place — the
substitution is not reverted on the exception path (funmax.py has no
try/finally around the ask call). -/
theorem funmaxThink_no_restore_on_error :
    (funmaxThink (fun _ => "re-rendered") (fun st => (.ok "browser-prompt", st))
        (fun st => (.error ⟨"ask boom"⟩, st)) sPrompt).2.nextStepPrompt
      ≠ sPrompt.nextStepPrompt := by
  decide

/-- Claim C3 as amended: the value of `next_step_prompt` after `think`
equals its value before the call whenever the delegated ask operation
returns normally; on an exception the substituted prompt remains in place. -/
theorem funmaxThink_restores_prompt_on_ok (render : AgentState → String)
    (bf : AgentOp String) (ask : AgentOp Bool) (s : AgentState) (b : Bool)
    (s' : AgentState) (h : funmaxThink render bf ask s = (.ok b, s')) :
    s'.nextStepPrompt = s.nextStepPrompt := by
  simp only [funmaxThink] at h
  split at h
  case _ e s1 heq => simp at h
  case _ u s1 heq =>
    split at h
    case _ e s2 hask => simp at h
    case _ r s2 hask =>
      obtain ⟨-, rfl⟩ := Prod.mk.injEq .. |>.mp h
      rfl

/-- Witness for the amended C3: ask returning normally, prompt restored. -/
theorem funmaxThink_restores_prompt_on_ok_witness :
    (funmaxThink (fun _ => "re-rendered") (fun st => (.ok "browser-prompt", st))
        (fun st => (.ok true, st)) sPrompt).2.nextStepPrompt
      = sPrompt.nextStepPrompt :=
  funmaxThink_restores_prompt_on_ok (fun _ => "re-rendered")
    (fun st => (.ok "browser-prompt", st)) (fun st => (.ok true, st))
    sPrompt true _ rfl

/-- Claim C4 counterexample: when the reasoning-service call for the task
summary raises, `prepare` itself raises — the failure propagates out of
`prepare` (funmax.py wraps no exception handler around the summary call). -/
theorem funmaxPrepare_summary_failure_propagates :
    (funmaxPrepare idOp idOp (fun st => (.error ⟨"summary boom"⟩, st))
        "sys" [] sInit).1 = .error ⟨"summary boom"⟩ := rfl

/-- Claim C4 as amended: given that the earlier phases of `prepare` complete,
`prepare` completes exactly when the summary request succeeds — a summary
failure propagates out of `prepare` with the same error, and on success the
summary lifecycle event is emitted. -/
theorem funmaxPrepare_summary_behavior
    (superPrepare populateTools : AgentOp Unit) (askSummary : AgentOp String)
    (sys : String) (hist : List (String × String)) (s s1 s2 : AgentState)
    (hsuper : superPrepare s = (.ok (), s1))
    (hpop : populateTools
        (hist.foldl (fun t m => update_memory m.1 m.2 t)
          (update_memory "system" sys s1)) = (.ok (), s2)) :
    (∀ e s3, askSummary s2 = (.error e, s3) →
       funmaxPrepare superPrepare populateTools askSummary sys hist s
         = (.error e, s3)) ∧
    (∀ sum s3, askSummary s2 = (.ok sum, s3) →
       funmaxPrepare superPrepare populateTools askSummary sys hist s
         = (.ok (), emit s3 (.lifecycleSummary sum))) := by
  constructor
  · intro e s3 hask
    simp [funmaxPrepare, hsuper, hpop, hask]
  · intro sum s3 hask
    simp [funmaxPrepare, hsuper, hpop, hask]

/-- Witness for the amended C4: a failing summary request propagates. -/
theorem funmaxPrepare_summary_behavior_witness :
    funmaxPrepare idOp idOp (fun st => (.error ⟨"summary boom"⟩, st))
        "sys" [] sInit
      = (.error ⟨"summary boom"⟩,
         update_memory "system" "sys" sInit) :=
  (funmaxPrepare_summary_behavior idOp idOp
    (fun st => (.error ⟨"summary boom"⟩, st)) "sys" [] sInit
    sInit (update_memory "system" "sys" sInit) rfl rfl).1
    ⟨"summary boom"⟩ _ rfl

/-- Claim C5 counterexample: a browser-context teardown that raises prevents
the tool-registry and base teardowns from running — the final event log shows
neither marker, and the exception propagates (funmax.py cleanup has no
per-step exception handling). -/
theorem funmaxCleanup_abort_on_browser_failure :
    (funmaxCleanup (fun st => (.error ⟨"browser boom"⟩, st))
        (fun st => (.ok (), emit st (.other "tools-cleaned")))
        (fun st => (.ok (), emit st (.other "super-cleaned"))) sInit).2.events
        = [] ∧
    (funmaxCleanup (fun st => (.error ⟨"browser boom"⟩, st))
        (fun st => (.ok (), emit st (.other "tools-cleaned")))
        (fun st => (.ok (), emit st (.other "super-cleaned"))) sInit).1
        = .error ⟨"browser boom"⟩ :=
  ⟨rfl, rfl⟩

/-- Claim C5 as amended: `cleanup` runs the browser-context teardown first,
then the tool-registry cleanup on its resulting state, then the base cleanup
on that state (in that order); an exception from an earlier teardown
propagates out of `cleanup` and the later teardowns do not run. -/
theorem funmaxCleanup_sequencing (cb ct cs : AgentOp Unit) :
    (∀ s s1 s2 s3, cb s = (.ok (), s1) → ct s1 = (.ok (), s2) →
       cs s2 = (.ok (), s3) → funmaxCleanup cb ct cs s = (.ok (), s3)) ∧
    (∀ s e s1, cb s = (.error e, s1) →
       funmaxCleanup cb ct cs s = (.error e, s1)) ∧
    (∀ s s1 e s2, cb s = (.ok (), s1) → ct s1 = (.error e, s2) →
       funmaxCleanup cb ct cs s = (.error e, s2)) ∧
    (∀ s s1 s2 e s3, cb s = (.ok (), s1) → ct s1 = (.ok (), s2) →
       cs s2 = (.error e, s3) → funmaxCleanup cb ct cs s = (.error e, s3)) := by
  refine ⟨?_, ?_, ?_, ?_⟩
  · intro s s1 s2 s3 h1 h2 h3
    simp [funmaxCleanup, h1, h2, h3]
  · intro s e s1 h1
    simp [funmaxCleanup, h1]
  · intro s s1 e s2 h1 h2
    simp [funmaxCleanup, h1, h2]
  · intro s s1 s2 e s3 h1 h2 h3
    simp [funmaxCleanup, h1, h2, h3]

/-- Witness for the amended C5: three marker-emitting teardowns run in order
browser, tools, base. -/
theorem funmaxCleanup_sequencing_witness :
    funmaxCleanup (fun st => (.ok (), emit st (.other "browser-cleaned")))
        (fun st => (.ok (), emit st (.other "tools-cleaned")))
        (fun st => (.ok (), emit st (.other "super-cleaned"))) sInit
      = (.ok (), emit (emit (emit sInit (.other "browser-cleaned"))
          (.other "tools-cleaned")) (.other "super-cleaned")) :=
  (funmaxCleanup_sequencing (fun st => (.ok (), emit st (.other "browser-cleaned")))
    (fun st => (.ok (), emit st (.other "tools-cleaned")))
    (fun st => (.ok (), emit st (.other "super-cleaned")))).1
    sInit _ _ _ rfl rfl rfl

/-- Memory after replaying a history with `update_memory`, for any starting
state. -/
theorem foldl_update_memory (hist : List (String × String)) :
    ∀ t : AgentState,
      (hist.foldl (fun t m => update_memory m.1 m.2 t) t).memory
        = t.memory ++ hist.map (fun m =>
            { role := m.1, content := m.2, toolCalls := [] }) := by
  induction hist with
  | nil => intro t; simp
  | cons m ms ih =>
    intro t
    simp only [List.foldl_cons, List.map_cons]
    rw [ih]
    simp [update_memory]

/-- Claim C7: the browser-recency check is true exactly when one of the last
3 memory messages (all of them when fewer exist) carries a tool call naming
the browser tool; and `think` hands the ask operation the browser-specialized
prompt exactly when the check is true, the freshly re-rendered generic prompt
otherwise. -/
theorem browser_recency_check_and_substitution (memory : List Message)
    (render : AgentState → String) (bf : AgentOp String) (ask : AgentOp Bool)
    (s : AgentState) :
    (checkBrowserInUseRecently memory = true ↔
      ∃ (i : Nat) (h : i < memory.length), memory.length ≤ i + 3 ∧
        ∃ tc ∈ (memory.get ⟨i, h⟩).toolCalls,
          tc.functionName = browserToolName) ∧
    (checkBrowserInUseRecently s.memory = true →
      ∀ p s2, bf { s with nextStepPrompt := render s } = (.ok p, s2) →
        funmaxThink render bf ask s
          = askContinue s.nextStepPrompt ask { s2 with nextStepPrompt := p }) ∧
    (checkBrowserInUseRecently s.memory = false →
      funmaxThink render bf ask s
        = askContinue s.nextStepPrompt ask
            { s with nextStepPrompt := render s }) := by
  refine ⟨⟨?_, ?_⟩, ?_, ?_⟩
  · intro h
    unfold checkBrowserInUseRecently lastThree at h
    by_cases hnil : memory.isEmpty
    · rw [if_pos hnil] at h
      simp at h
    · rw [if_neg hnil] at h
      rw [List.any_eq_true] at h
      obtain ⟨msg, hmem, hp⟩ := h
      rw [List.mem_iff_getElem?] at hmem
      obtain ⟨j, hj⟩ := hmem
      rw [List.getElem?_drop, List.getElem?_eq_some] at hj
      obtain ⟨hlt, hje⟩ := hj
      refine ⟨memory.length - 3 + j, hlt, by omega, ?_⟩
      rw [List.any_eq_true] at hp
      obtain ⟨tc, htc, hname⟩ := hp
      refine ⟨tc, ?_, by simpa using hname⟩
      simpa [List.get_eq_getElem, hje] using htc
  · rintro ⟨i, h, hle, tc, htc, hname⟩
    unfold checkBrowserInUseRecently lastThree
    have hnil : ¬memory.isEmpty = true := by
      rw [List.isEmpty_iff]
      rintro rfl
      simp at h
    rw [if_neg hnil, List.any_eq_true]
    refine ⟨memory.get ⟨i, h⟩, ?_, ?_⟩
    · rw [List.mem_iff_getElem?]
      refine ⟨i - (memory.length - 3), ?_⟩
      rw [List.getElem?_drop]
      have hki : memory.length - 3 + (i - (memory.length - 3)) = i := by omega
      rw [hki]
      simp [List.get_eq_getElem]
    · rw [List.any_eq_true]
      exact ⟨tc, htc, by simpa using hname⟩
  · intro hb p s2 hbf
    simp [funmaxThink, askContinue, hb, hbf]
  · intro hb
    simp [funmaxThink, askContinue, hb]

/-- Witness for C7: a memory whose last message carries a browser tool call
makes `think` hand the ask operation the browser-specialized prompt. -/
theorem browser_recency_check_and_substitution_witness :
    funmaxThink (fun _ => "re-rendered")
        (fun st => (.ok "browser-prompt", st)) (fun st => (.ok true, st))
        sBrowser
      = askContinue sBrowser.nextStepPrompt (fun st => (.ok true, st))
          { sBrowser with nextStepPrompt := "browser-prompt" } :=
  (browser_recency_check_and_substitution sBrowser.memory
    (fun _ => "re-rendered") (fun st => (.ok "browser-prompt", st))
    (fun st => (.ok true, st)) sBrowser).2.1 (by decide) "browser-prompt"
    { sBrowser with nextStepPrompt := "re-rendered" } rfl

/-- Claim C9: when `prepare` completes on a fresh Memory — with the base
preparation, the registry population and the summary request leaving Memory
untouched, as they do in the source — Memory afterwards holds the
system-prompt message first, then one message per supplied history entry with
that role and content, in supply order. -/
theorem funmaxPrepare_memory_seeding
    (superPrepare populateTools : AgentOp Unit) (askSummary : AgentOp String)
    (sys : String) (hist : List (String × String)) (s : AgentState)
    (hsuperMem : ∀ t, ((superPrepare t).2).memory = t.memory)
    (hpopMem : ∀ t, ((populateTools t).2).memory = t.memory)
    (haskMem : ∀ t, ((askSummary t).2).memory = t.memory)
    (hmem : s.memory = [])
    (hok : (funmaxPrepare superPrepare populateTools askSummary
        sys hist s).1 = .ok ()) :
    (funmaxPrepare superPrepare populateTools askSummary sys hist s).2.memory
      = { role := "system", content := sys, toolCalls := [] } ::
        hist.map (fun m =>
          { role := m.1, content := m.2, toolCalls := [] }) := by
  rcases hs1 : superPrepare s with ⟨r1, s1⟩
  have hm1 : s1.memory = s.memory := by
    have h0 := hsuperMem s
    rw [hs1] at h0
    exact h0
  rcases r1 with e | ⟨⟩
  · simp [funmaxPrepare, hs1] at hok
  · rcases hp : populateTools (hist.foldl (fun t m => update_memory m.1 m.2 t)
        (update_memory "system" sys s1)) with ⟨r2, s2⟩
    have hm2 : s2.memory = (hist.foldl (fun t m => update_memory m.1 m.2 t)
        (update_memory "system" sys s1)).memory := by
      have h0 := hpopMem (hist.foldl (fun t m => update_memory m.1 m.2 t)
        (update_memory "system" sys s1))
      rw [hp] at h0
      exact h0
    rcases r2 with e | ⟨⟩
    · simp [funmaxPrepare, hs1, hp] at hok
    · rcases ha : askSummary s2 with ⟨r3, s3⟩
      have hm3 : s3.memory = s2.memory := by
        have h0 := haskMem s2
        rw [ha] at h0
        exact h0
      rcases r3 with e | sum
      · simp [funmaxPrepare, hs1, hp, ha] at hok
      · have hres : (funmaxPrepare superPrepare populateTools askSummary
            sys hist s).2 = emit s3 (.lifecycleSummary sum) := by
          simp [funmaxPrepare, hs1, hp, ha]
        rw [hres, emit_memory, hm3, hm2, foldl_update_memory]
        simp [update_memory, hm1, hmem]

/-- Witness for C9: replaying history `[(user, hello)]` yields the system
prompt followed by the user message. -/
theorem funmaxPrepare_memory_seeding_witness :
    (funmaxPrepare idOp idOp (fun st => (.ok "sum", st)) "sys-prompt"
        [("user", "hello")] sInit).2.memory
      = [{ role := "system", content := "sys-prompt", toolCalls := [] },
         { role := "user", content := "hello", toolCalls := [] }] :=
  funmaxPrepare_memory_seeding idOp idOp (fun st => (.ok "sum", st))
    "sys-prompt" [("user", "hello")] sInit (fun _ => rfl) (fun _ => rfl)
    (fun _ => rfl) rfl rfl

end HeyFun
